import Mathlib

/-!
Shallow embedding of `micmon.py` (class `AudioNoiseGate`) over the reals.

The constructor `AudioNoiseGate.__init__` derives the configuration fields;
the per-block operation `audio_callback` measures RMS, decides a target gain
with a soft knee, smooths the gain with an asymmetric one-pole filter and
applies the gain uniformly to the block.  Python floats are modelled as real
numbers; the `ZeroDivisionError` the coefficient derivation raises when
`sample_rate * attack_time` (or `* release_time`) equals zero is modelled by
`Option`: construction returns `none` exactly in that case.
-/

namespace MicMonitor

/-- Model of `np.clip(x, lo, hi)`: equivalent to `min (max x lo) hi`. -/
noncomputable def np_clip (x lo hi : ℝ) : ℝ := min (max x lo) hi

/-- The raw keyword arguments of `AudioNoiseGate.__init__` (source lines 6-14). -/
structure RawSettings where
  threshold : ℝ
  block_size : ℤ
  sample_rate : ℝ
  attack_time : ℝ
  release_time : ℝ
  volume_db : ℝ

/-- The object state after `AudioNoiseGate.__init__` (source lines 20-33).
The field the source calls `inv_ratio` is named `inv_exponent` here. -/
structure AudioNoiseGate where
  threshold : ℝ
  block_size : ℤ
  sample_rate : ℝ
  volume_db : ℝ
  volume : ℝ
  attack_coef : ℝ
  release_coef : ℝ
  current_gain : ℝ
  threshold_amplitude : ℝ
  inv_exponent : ℝ

/-- `AudioNoiseGate.__init__`, source lines 20-33.  In Python the expression
`np.exp(-1.0 / (sample_rate * attack_time))` raises `ZeroDivisionError` when
the product is zero (likewise for the release coefficient); that failure is
the `none` branch.  No other line of the constructor can fail. -/
noncomputable def init (s : RawSettings) : Option AudioNoiseGate :=
  if s.sample_rate * s.attack_time = 0 ∨ s.sample_rate * s.release_time = 0 then
    none
  else
    some
      { threshold := s.threshold
        block_size := s.block_size
        sample_rate := s.sample_rate
        volume_db := np_clip s.volume_db (-60.0) 12.0
        volume := (10 : ℝ) ^ (np_clip s.volume_db (-60.0) 12.0 / 20.0)
        attack_coef := Real.exp (-1.0 / (s.sample_rate * s.attack_time))
        release_coef := Real.exp (-1.0 / (s.sample_rate * s.release_time))
        current_gain := 1.0
        threshold_amplitude := (10 : ℝ) ^ (s.threshold / 20.0)
        inv_exponent := 0.1 }

/-- Source line 40: `rms = np.sqrt(np.mean(np.square(audio)))`. -/
noncomputable def rms (audio : List ℝ) : ℝ :=
  Real.sqrt ((audio.map fun x => x * x).sum / audio.length)

/-- Source lines 43-47: the soft-knee gate decision for a measured RMS `r`. -/
noncomputable def target_gain (g : AudioNoiseGate) (r : ℝ) : ℝ :=
  if r > g.threshold_amplitude then 1.0
  else max ((r / g.threshold_amplitude) ^ g.inv_exponent) 0.01

/-- `AudioNoiseGate.audio_callback`, source lines 35-56: returns the updated
object state together with the output block written to `outdata[:, 0]`. -/
noncomputable def audio_callback (g : AudioNoiseGate) (indata : List ℝ) :
    AudioNoiseGate × List ℝ :=
  let tg := target_gain g (rms indata)
  let coef := if tg > g.current_gain then g.attack_coef else g.release_coef
  let new_gain := g.current_gain + (tg - g.current_gain) * (1 - coef)
  ({ g with current_gain := new_gain }, indata.map fun x => x * new_gain * g.volume)

/-- Sequential per-block processing: the stream driver invokes the callback
once per block, each call seeing the state left by the previous one. -/
noncomputable def run (g : AudioNoiseGate) (blocks : List (List ℝ)) : AudioNoiseGate :=
  blocks.foldl (fun st b => (audio_callback st b).1) g

/-- Source line 151: `volume_db = 20 * np.log10(volume_percent / 100.0)`,
with `np.log10 x = log x / log 10`. -/
noncomputable def np_log10 (x : ℝ) : ℝ := Real.log x / Real.log 10

/-- The `__main__` conversion from a volume percentage to decibels. -/
noncomputable def volume_db_of_percent (p : ℝ) : ℝ := 20 * np_log10 (p / 100.0)

/-- The default settings of `AudioNoiseGate.__init__` (source lines 8-13). -/
def defaultSettings : RawSettings :=
  { threshold := -35
    block_size := 64
    sample_rate := 48000
    attack_time := 0.0005
    release_time := 0.02
    volume_db := 0 }

/-- The gate the default settings construct, fields written out. -/
noncomputable def defaultGate : AudioNoiseGate :=
  { threshold := -35
    block_size := 64
    sample_rate := 48000
    volume_db := np_clip 0 (-60.0) 12.0
    volume := (10 : ℝ) ^ (np_clip 0 (-60.0) 12.0 / 20.0)
    attack_coef := Real.exp (-1.0 / (48000 * 0.0005))
    release_coef := Real.exp (-1.0 / (48000 * 0.02))
    current_gain := 1.0
    threshold_amplitude := (10 : ℝ) ^ ((-35 : ℝ) / 20.0)
    inv_exponent := 0.1 }

lemma init_defaultSettings : init defaultSettings = some defaultGate := by
  rw [init, if_neg]
  · rfl
  · rw [defaultSettings]
    norm_num

/-- A concrete gate state with simple field values, used to instantiate
hypotheses of general theorems at a checkable point. -/
noncomputable def testGate : AudioNoiseGate :=
  { threshold := 0
    block_size := 1
    sample_rate := 1
    volume_db := 0
    volume := 1
    attack_coef := 1 / 2
    release_coef := 1 / 2
    current_gain := 1
    threshold_amplitude := 1
    inv_exponent := 0.1 }

/-- C1 counterexample: the claim says construction must not succeed whenever
`blockSize <= 0`; yet `__init__` never reads `block_size` in a computation,
so constructing with `block_size = -1` (all other arguments the defaults)
succeeds. -/
theorem init_negative_block_size_succeeds :
    (init
      { threshold := -35
        block_size := -1
        sample_rate := 48000
        attack_time := 0.0005
        release_time := 0.02
        volume_db := 0 }).isSome = true := by
  rw [init, if_neg]
  · rfl
  · norm_num

/-- C1 (amended): `__init__` performs no validation and has no `InvalidConfig`
error; it succeeds exactly when `sample_rate * attack_time ≠ 0` and
`sample_rate * release_time ≠ 0` (otherwise the coefficient derivation
divides by zero), so non-positive `block_size` and negative `sample_rate`,
`attack_time` or `release_time` are all accepted. -/
theorem init_isSome_iff (s : RawSettings) :
    (init s).isSome = true ↔
      s.sample_rate * s.attack_time ≠ 0 ∧ s.sample_rate * s.release_time ≠ 0 := by
  rw [init]
  split
  · rename_i h
    simp only [Option.isSome_none, Bool.false_eq_true, false_iff]
    tauto
  · rename_i h
    simp only [Option.isSome_some, true_iff]
    tauto

/-- C3: on every call, the callback selects `attack_coef` when the target gain
exceeds `current_gain` and `release_coef` otherwise, updates `current_gain`
once by `current_gain += (target - current_gain) * (1 - coef)` while leaving
every other field unchanged, and the state it returns is exactly the state
the next call in the sequential run receives. -/
theorem callback_gain_update (g : AudioNoiseGate) (audio : List ℝ) :
    (audio_callback g audio).1 =
      { g with current_gain :=
          g.current_gain +
            (target_gain g (rms audio) - g.current_gain) *
              (1 - if target_gain g (rms audio) > g.current_gain
                   then g.attack_coef else g.release_coef) } ∧
    ∀ blocks : List (List ℝ),
      run g (audio :: blocks) = run (audio_callback g audio).1 blocks :=
  ⟨rfl, fun _ => rfl⟩

/-- C4: every output sample is the corresponding input sample multiplied by
the post-update `current_gain` and by `volume` — the same gain factor for
every sample of the block. -/
theorem callback_output (g : AudioNoiseGate) (audio : List ℝ) :
    (audio_callback g audio).2 =
      audio.map (fun x => x * (audio_callback g audio).1.current_gain * g.volume) ∧
    ∀ i : ℕ,
      ((audio_callback g audio).2)[i]? =
        (audio[i]?).map
          (fun x => x * (audio_callback g audio).1.current_gain * g.volume) := by
  refine ⟨rfl, fun i => ?_⟩
  rw [show (audio_callback g audio).2 =
        audio.map (fun x => x * (audio_callback g audio).1.current_gain * g.volume)
      from rfl]
  exact List.getElem?_map _ audio i

/-- C8: the per-block operation is total on real-valued blocks: the output has
the same length as the input, and an all-zero input block yields the all-zero
output block (in particular no failure on silence). -/
theorem callback_total (g : AudioNoiseGate) (audio : List ℝ) :
    ((audio_callback g audio).2).length = audio.length ∧
    (audio_callback g (List.replicate audio.length (0 : ℝ))).2 =
      List.replicate audio.length 0 := by
  constructor
  · exact List.length_map _ _
  · rw [show (audio_callback g (List.replicate audio.length (0 : ℝ))).2 =
          (List.replicate audio.length (0 : ℝ)).map
            (fun x =>
              x * (audio_callback g (List.replicate audio.length (0 : ℝ))).1.current_gain *
                g.volume)
        from rfl, List.map_replicate]
    simp

lemma init_volume_db (s : RawSettings) (v : ℝ) :
    init { s with volume_db := v } =
      if s.sample_rate * s.attack_time = 0 ∨ s.sample_rate * s.release_time = 0 then
        none
      else
        some
          { threshold := s.threshold
            block_size := s.block_size
            sample_rate := s.sample_rate
            volume_db := np_clip v (-60.0) 12.0
            volume := (10 : ℝ) ^ (np_clip v (-60.0) 12.0 / 20.0)
            attack_coef := Real.exp (-1.0 / (s.sample_rate * s.attack_time))
            release_coef := Real.exp (-1.0 / (s.sample_rate * s.release_time))
            current_gain := 1.0
            threshold_amplitude := (10 : ℝ) ^ (s.threshold / 20.0)
            inv_exponent := 0.1 } := rfl

/-- C2: the per-block operation measures `rms = sqrt(mean(x²))`; the target
gain is `1` above threshold and `max ((rms/threshold_amplitude)^0.1, 0.01)`
otherwise; for an all-zero block the RMS is `0`, so the target gain is the
floor `0.01` and in particular is not zero. -/
theorem zero_block_target_gain (g : AudioNoiseGate)
    (hT : 0 < g.threshold_amplitude) (hk : g.inv_exponent = 0.1)
    (n : ℕ) (hn : 0 < n) :
    rms (List.replicate n (0 : ℝ)) = 0 ∧
    target_gain g (rms (List.replicate n (0 : ℝ))) = 0.01 ∧
    target_gain g (rms (List.replicate n (0 : ℝ))) ≠ 0 ∧
    (∀ r : ℝ, g.threshold_amplitude < r → target_gain g r = 1) ∧
    (∀ r : ℝ, r ≤ g.threshold_amplitude →
      target_gain g r = max ((r / g.threshold_amplitude) ^ (0.1 : ℝ)) 0.01) := by
  have hrms : rms (List.replicate n (0 : ℝ)) = 0 := by
    unfold rms
    rw [List.map_replicate]
    simp
  have h0 : target_gain g 0 = 0.01 := by
    unfold target_gain
    rw [if_neg (not_lt.2 hT.le), zero_div, hk, Real.zero_rpow (by norm_num)]
    norm_num
  refine ⟨hrms, ?_, ?_, ?_, ?_⟩
  · rw [hrms, h0]
  · rw [hrms, h0]; norm_num
  · intro r h
    unfold target_gain
    rw [if_pos h]
    norm_num
  · intro r h
    unfold target_gain
    rw [if_neg (not_lt.2 h), hk]

/-- C2 witness at a concrete gate state and block length. -/
theorem zero_block_target_gain_witness :
    rms (List.replicate 1 (0 : ℝ)) = 0 ∧
    target_gain testGate (rms (List.replicate 1 (0 : ℝ))) = 0.01 ∧
    target_gain testGate (rms (List.replicate 1 (0 : ℝ))) ≠ 0 ∧
    (∀ r : ℝ, testGate.threshold_amplitude < r → target_gain testGate r = 1) ∧
    (∀ r : ℝ, r ≤ testGate.threshold_amplitude →
      target_gain testGate r =
        max ((r / testGate.threshold_amplitude) ^ (0.1 : ℝ)) 0.01) :=
  zero_block_target_gain testGate (by rw [testGate]; norm_num) rfl 1 (by norm_num)

/-- C5: with both coefficients in `(0,1)`, the updated `current_gain` equals
the old one when the target already equals it, and otherwise lies strictly
between the old value and the target — no overshoot, no moving away. -/
theorem callback_no_overshoot (g : AudioNoiseGate) (audio : List ℝ)
    (ha : g.attack_coef ∈ Set.Ioo (0 : ℝ) 1)
    (hr : g.release_coef ∈ Set.Ioo (0 : ℝ) 1) :
    (target_gain g (rms audio) = g.current_gain →
      (audio_callback g audio).1.current_gain = g.current_gain) ∧
    (target_gain g (rms audio) ≠ g.current_gain →
      min g.current_gain (target_gain g (rms audio)) <
          (audio_callback g audio).1.current_gain ∧
        (audio_callback g audio).1.current_gain <
          max g.current_gain (target_gain g (rms audio))) := by
  obtain ⟨ha0, ha1⟩ := ha
  obtain ⟨hr0, hr1⟩ := hr
  have hnew : (audio_callback g audio).1.current_gain =
      g.current_gain + (target_gain g (rms audio) - g.current_gain) *
        (1 - if target_gain g (rms audio) > g.current_gain
             then g.attack_coef else g.release_coef) := rfl
  constructor
  · intro he
    rw [hnew, he]
    ring
  · intro hne
    rcases lt_or_gt_of_ne hne with hlt | hgt
    · rw [hnew, if_neg (not_lt.2 hlt.le), min_eq_right hlt.le, max_eq_left hlt.le]
      constructor
      · nlinarith
      · nlinarith
    · rw [hnew, if_pos hgt, min_eq_left hgt.le, max_eq_right hgt.le]
      constructor
      · nlinarith
      · nlinarith

/-- C5 witness at a concrete gate state and block. -/
theorem callback_no_overshoot_witness :
    (target_gain testGate (rms [0]) = testGate.current_gain →
      (audio_callback testGate [0]).1.current_gain = testGate.current_gain) ∧
    (target_gain testGate (rms [0]) ≠ testGate.current_gain →
      min testGate.current_gain (target_gain testGate (rms [0])) <
          (audio_callback testGate [0]).1.current_gain ∧
        (audio_callback testGate [0]).1.current_gain <
          max testGate.current_gain (target_gain testGate (rms [0]))) :=
  callback_no_overshoot testGate [0]
    (by rw [Set.mem_Ioo]; constructor <;> norm_num [testGate])
    (by rw [Set.mem_Ioo]; constructor <;> norm_num [testGate])

/-- C6: `volume_db` is clamped to `[-60, 12]` before `volume` is derived, and
out-of-range values are clamped, not rejected: constructing with
`volume_db = 999` gives exactly the state of `volume_db = 12`, and
`volume_db = -999` exactly the state of `volume_db = -60`. -/
theorem init_clamps_volume (s : RawSettings) :
    init { s with volume_db := 999 } = init { s with volume_db := 12 } ∧
    init { s with volume_db := -999 } = init { s with volume_db := -60 } ∧
    (init s).map AudioNoiseGate.volume_db =
      (init s).map (fun _ => np_clip s.volume_db (-60.0) 12.0) ∧
    (init s).map AudioNoiseGate.volume =
      (init s).map (fun _ => (10 : ℝ) ^ (np_clip s.volume_db (-60.0) 12.0 / 20.0)) := by
  refine ⟨?_, ?_, ?_, ?_⟩
  · rw [init_volume_db, init_volume_db]
    by_cases hc : s.sample_rate * s.attack_time = 0 ∨ s.sample_rate * s.release_time = 0
    · rw [if_pos hc, if_pos hc]
    · rw [if_neg hc, if_neg hc]
      simp only [Option.some.injEq, AudioNoiseGate.mk.injEq]
      norm_num [np_clip, max_def, min_def]
  · rw [init_volume_db, init_volume_db]
    by_cases hc : s.sample_rate * s.attack_time = 0 ∨ s.sample_rate * s.release_time = 0
    · rw [if_pos hc, if_pos hc]
    · rw [if_neg hc, if_neg hc]
      simp only [Option.some.injEq, AudioNoiseGate.mk.injEq]
      norm_num [np_clip, max_def, min_def]
  · by_cases hc : s.sample_rate * s.attack_time = 0 ∨ s.sample_rate * s.release_time = 0
    · rw [init, if_pos hc]
      rfl
    · rw [init, if_neg hc]
      rfl
  · by_cases hc : s.sample_rate * s.attack_time = 0 ∨ s.sample_rate * s.release_time = 0
    · rw [init, if_pos hc]
      rfl
    · rw [init, if_neg hc]
      rfl

/-- C10: whenever construction succeeds, `threshold_amplitude = 10^(threshold/20)`
is strictly positive (for any real threshold), so the division
`rms / threshold_amplitude` in the gate decision never divides by zero. -/
theorem threshold_amplitude_pos (s : RawSettings) (g : AudioNoiseGate)
    (h : init s = some g) :
    0 < g.threshold_amplitude ∧ g.threshold_amplitude ≠ 0 := by
  by_cases hc : s.sample_rate * s.attack_time = 0 ∨ s.sample_rate * s.release_time = 0
  · rw [init, if_pos hc] at h
    exact absurd h (by simp)
  · rw [init, if_neg hc] at h
    obtain rfl := Option.some.inj h
    have hpos : (0 : ℝ) < (10 : ℝ) ^ (s.threshold / 20.0) :=
      Real.rpow_pos_of_pos (by norm_num) _
    exact ⟨hpos, hpos.ne'⟩

/-- C10 witness at the default settings. -/
theorem threshold_amplitude_pos_witness :
    0 < defaultGate.threshold_amplitude ∧ defaultGate.threshold_amplitude ≠ 0 :=
  threshold_amplitude_pos defaultSettings defaultGate init_defaultSettings

lemma rms_nonneg (audio : List ℝ) : 0 ≤ rms audio := Real.sqrt_nonneg _

lemma target_gain_mem_Icc (g : AudioNoiseGate) (r : ℝ) (hrge : 0 ≤ r)
    (hT : 0 < g.threshold_amplitude) (hk : g.inv_exponent = 0.1) :
    target_gain g r ∈ Set.Icc (0.01 : ℝ) 1 := by
  rw [Set.mem_Icc]
  unfold target_gain
  split_ifs with h
  · norm_num
  · have h1 : 0 ≤ r / g.threshold_amplitude := div_nonneg hrge hT.le
    have h2 : r / g.threshold_amplitude ≤ 1 := (div_le_one hT).2 (not_lt.1 h)
    refine ⟨le_max_right _ _, max_le ?_ (by norm_num)⟩
    rw [hk]
    exact Real.rpow_le_one h1 h2 (by norm_num)

lemma convex_step_mem (c t k : ℝ)
    (hc : c ∈ Set.Icc (0.01 : ℝ) 1) (ht : t ∈ Set.Icc (0.01 : ℝ) 1)
    (hk0 : 0 ≤ k) (hk1 : k ≤ 1) :
    c + (t - c) * (1 - k) ∈ Set.Icc (0.01 : ℝ) 1 := by
  rw [Set.mem_Icc] at *
  obtain ⟨hc1, hc2⟩ := hc
  obtain ⟨ht1, ht2⟩ := ht
  constructor
  · nlinarith
  · nlinarith

lemma run_gain_bounded (g : AudioNoiseGate) (blocks : List (List ℝ))
    (ha : g.attack_coef ∈ Set.Ioo (0 : ℝ) 1)
    (hr : g.release_coef ∈ Set.Ioo (0 : ℝ) 1)
    (hT : 0 < g.threshold_amplitude) (hk : g.inv_exponent = 0.1)
    (hc : g.current_gain ∈ Set.Icc (0.01 : ℝ) 1) :
    (run g blocks).current_gain ∈ Set.Icc (0.01 : ℝ) 1 := by
  induction blocks generalizing g with
  | nil => exact hc
  | cons b bs ih =>
    have htg := target_gain_mem_Icc g (rms b) (rms_nonneg b) hT hk
    have hstep : (audio_callback g b).1.current_gain ∈ Set.Icc (0.01 : ℝ) 1 := by
      have hnew : (audio_callback g b).1.current_gain =
          g.current_gain + (target_gain g (rms b) - g.current_gain) *
            (1 - if target_gain g (rms b) > g.current_gain
                 then g.attack_coef else g.release_coef) := rfl
      rw [hnew]
      split_ifs
      · exact convex_step_mem _ _ _ hc htg ha.1.le ha.2.le
      · exact convex_step_mem _ _ _ hc htg hr.1.le hr.2.le
    exact ih (audio_callback g b).1 ha hr hT hk hstep

/-- C9: with both smoothing coefficients in `(0,1)`, `current_gain` stays in
`[0.01, 1]` through any sequence of blocks: construction starts it at `1.0`,
and each update is a convex combination of the old value with a target gain
that itself lies in `[0.01, 1]`. -/
theorem gain_invariant :
    (∀ s : RawSettings,
      (init s).map AudioNoiseGate.current_gain = (init s).map fun _ => (1 : ℝ)) ∧
    ∀ (g : AudioNoiseGate) (blocks : List (List ℝ)),
      g.attack_coef ∈ Set.Ioo (0 : ℝ) 1 →
      g.release_coef ∈ Set.Ioo (0 : ℝ) 1 →
      0 < g.threshold_amplitude → g.inv_exponent = 0.1 →
      g.current_gain ∈ Set.Icc (0.01 : ℝ) 1 →
      (run g blocks).current_gain ∈ Set.Icc (0.01 : ℝ) 1 := by
  constructor
  · intro s
    by_cases hc : s.sample_rate * s.attack_time = 0 ∨ s.sample_rate * s.release_time = 0
    · rw [init, if_pos hc]
      rfl
    · rw [init, if_neg hc]
      norm_num
  · exact fun g blocks ha hr hT hk hc => run_gain_bounded g blocks ha hr hT hk hc

/-- C9 witness: the initial gain of a built gate and a concrete run. -/
theorem gain_invariant_witness :
    ((init defaultSettings).map AudioNoiseGate.current_gain =
      (init defaultSettings).map fun _ => (1 : ℝ)) ∧
    (run testGate [[0]]).current_gain ∈ Set.Icc (0.01 : ℝ) 1 :=
  ⟨gain_invariant.1 defaultSettings,
   gain_invariant.2 testGate [[0]]
     (by rw [Set.mem_Ioo]; constructor <;> norm_num [testGate])
     (by rw [Set.mem_Ioo]; constructor <;> norm_num [testGate])
     (by rw [testGate]; norm_num) rfl
     (by rw [Set.mem_Icc, testGate]; norm_num)⟩

/-- C7: for `percent` in `[1, 200]`, converting to decibels with
`20 * log10(percent/100)` and deriving `volume = 10^(volume_db/20)` through
the constructor (whose clamp to `[-60, 12]` does not bite on this range)
reproduces `percent / 100` exactly in the real-number model. -/
theorem volume_roundtrip (s : RawSettings) (p : ℝ) (h1 : 1 ≤ p) (h2 : p ≤ 200) :
    (init { s with volume_db := volume_db_of_percent p }).map AudioNoiseGate.volume =
      (init { s with volume_db := volume_db_of_percent p }).map fun _ => p / 100 := by
  have h100 : (100.0 : ℝ) = 100 := by norm_num
  have h60 : (-60.0 : ℝ) = -60 := by norm_num
  have h12 : (12.0 : ℝ) = 12 := by norm_num
  have h20 : (20.0 : ℝ) = 20 := by norm_num
  have hp : (0 : ℝ) < p / 100 := by linarith
  have hlog10 : 0 < Real.log 10 := Real.log_pos (by norm_num)
  have hlow : Real.log (1/100 : ℝ) ≤ Real.log (p/100) :=
    (Real.log_le_log_iff (by norm_num) hp).2 (by linarith)
  have hlow' : Real.log (1/100 : ℝ) = -(2 * Real.log 10) := by
    rw [show (1/100 : ℝ) = ((10 : ℝ) ^ (2 : ℕ))⁻¹ by norm_num, Real.log_inv,
      Real.log_pow]
    push_cast
    ring
  have hup : Real.log (p/100) ≤ Real.log 2 :=
    (Real.log_le_log_iff hp (by norm_num)).2 (by linarith)
  have hlog2 : 5 * Real.log 2 ≤ 3 * Real.log 10 := by
    have h32 : Real.log (32 : ℝ) ≤ Real.log 1000 :=
      (Real.log_le_log_iff (by norm_num) (by norm_num)).2 (by norm_num)
    rw [show (32 : ℝ) = 2 ^ (5 : ℕ) by norm_num,
      show (1000 : ℝ) = 10 ^ (3 : ℕ) by norm_num, Real.log_pow, Real.log_pow] at h32
    push_cast at h32
    linarith
  have hLlow : (-3 : ℝ) ≤ Real.log (p/100) / Real.log 10 := by
    rw [le_div_iff₀ hlog10]
    linarith
  have hLup : Real.log (p/100) / Real.log 10 ≤ 3/5 := by
    rw [div_le_iff₀ hlog10]
    linarith
  have hdb : volume_db_of_percent p = 20 * (Real.log (p/100) / Real.log 10) := by
    unfold volume_db_of_percent np_log10
    rw [h100]
  have hclip : np_clip (volume_db_of_percent p) (-60.0) 12.0 = volume_db_of_percent p := by
    unfold np_clip
    rw [h60, h12, hdb, max_eq_left (by linarith), min_eq_left (by linarith)]
  have hvol : (10 : ℝ) ^ (np_clip (volume_db_of_percent p) (-60.0) 12.0 / 20.0) = p / 100 := by
    rw [hclip, hdb,
      show (20 * (Real.log (p/100) / Real.log 10)) / 20.0 =
        Real.log (p/100) / Real.log 10 by rw [h20]; ring,
      Real.log_div_log]
    exact Real.rpow_logb (by norm_num) (by norm_num) hp
  rw [init_volume_db]
  by_cases hc : s.sample_rate * s.attack_time = 0 ∨ s.sample_rate * s.release_time = 0
  · rw [if_pos hc]
    rfl
  · rw [if_neg hc]
    show some ((10 : ℝ) ^ (np_clip (volume_db_of_percent p) (-60.0) 12.0 / 20.0)) =
      some (p / 100)
    exact congrArg some hvol

/-- C7 witness at `percent = 100` and the default settings. -/
theorem volume_roundtrip_witness :
    (init { defaultSettings with volume_db := volume_db_of_percent 100 }).map
        AudioNoiseGate.volume =
      (init { defaultSettings with volume_db := volume_db_of_percent 100 }).map
        fun _ => (100 : ℝ) / 100 :=
  volume_roundtrip defaultSettings 100 (by norm_num) (by norm_num)

end MicMonitor
